import Mathlib

/-!
Verification of the core I/O engine of the EML_NL reader/writer library.

The definitions below are a shallow embedding of the core types and functions
of the library: the qualified-name model (src/io/qualified_name.rs), the error
model (src/error.rs), the typed-value store (src/utils/string_value.rs), the
streaming element reader (src/io/reader.rs) and the element writer
(src/io/writer.rs).  The XML tokenizer and the namespace resolver of the
underlying quick-xml library are external collaborators: the input to the core
is therefore modelled as a stream of structural events in which start tags
carry both their raw tag name (used for end-tag matching, which the source
performs on raw bytes) and the resolved qualified name produced by the
external resolver.  Event payloads (text, CDATA) are modelled after decoding,
since decoding also lives in the external library.
-/

namespace EMLNL

/-- Byte-offset span into the input, half open.  Models Span from
src/io/reader.rs; the Rust field named end is called stop here because end is
a Lean keyword. -/
structure Span where
  start : Nat
  stop : Nat
deriving DecidableEq, Repr

/-- The three value-parsing strictness modes, models EMLParsingMode from
src/io/reader.rs. -/
inductive EMLParsingMode where
  | Strict
  | StrictFallback
  | Loose
deriving DecidableEq, Repr

/-- A resolved XML name: local name plus optional namespace URI.  Models
QualifiedName from src/io/qualified_name.rs; the Rust field named namespace is
called ns here because namespace is a Lean keyword.  The borrowed/owned
distinction of the source (QualifiedName vs OwnedQualifiedName) collapses in a
garbage-collected setting, as the design notes of the source anticipate. -/
structure QualifiedName where
  local_name : String
  ns : Option String
deriving DecidableEq, Repr

/-- The closed set of error causes, models EMLErrorKind from src/error.rs.
Payloads of causes produced by the external XML library are reduced to a
display string; the type-erased inner cause of InvalidValue is likewise
modelled by its display string, matching the type-erasure design of the
source.  FuelExhausted is a modelling artifact: the translated loops carry a
fuel argument initialised to more than the number of remaining input events,
and this cause marks the unreachable fuel-out branch (the source loops
terminate because every iteration consumes at least one event). -/
inductive EMLErrorKind where
  | XmlError (msg : String)
  | IoError (msg : String)
  | EscapeError (msg : String)
  | AttributeError (msg : String)
  | EncodingError (msg : String)
  | FromUtf8Error (msg : String)
  | UnexpectedEndElement
  | UnexpectedEof
  | UnexpectedEvent
  | MissingElement (name : QualifiedName)
  | MissingAttribute (name : QualifiedName)
  | UnexpectedElement (found : QualifiedName) (enclosing : QualifiedName)
  | UnknownNamespace (prefix_ : String)
  | InvalidRootElement
  | SchemaVersionNotSupported (version : String)
  | UnknownDocumentType (id : String)
  | InvalidDocumentType (expected : String) (found : String)
  | InvalidValue (name : QualifiedName) (cause : String)
  | AttributeNamespaceError
  | ElementNamespaceError
  | FuelExhausted
deriving DecidableEq, Repr

/-- An error with optional position information or an aggregate of several
errors, models EMLError from src/error.rs. -/
inductive EMLError where
  | Positioned (kind : EMLErrorKind) (span : Span)
  | UnknownPosition (kind : EMLErrorKind)
  | Multiple (errors : List EMLError)
deriving Repr

/-- Models EMLError::invalid_value from src/error.rs. -/
def EMLError.invalid_value (field : QualifiedName) (cause : String)
    (span : Option Span) : EMLError :=
  let kind := EMLErrorKind.InvalidValue field cause
  match span with
  | some span => EMLError.Positioned kind span
  | none => EMLError.UnknownPosition kind

/-- Models EMLError::from_vec_with_additional from src/error.rs: push the
final error onto the accumulated list; if the result has exactly one element
return it unwrapped, otherwise wrap the list in Multiple. -/
def EMLError.from_vec_with_additional (errors : List EMLError)
    (error : EMLError) : EMLError :=
  let errs := errors ++ [error]
  if errs.length == 1 then errs.headD error else EMLError.Multiple errs

/-- Models EMLError::kind from src/error.rs (delegates to the last element of
a Multiple; the source unwraps a non-emptiness invariant, modelled here by a
default in the unreachable empty case). -/
def EMLError.kind : EMLError → EMLErrorKind
  | .Positioned kind _ => kind
  | .UnknownPosition kind => kind
  | .Multiple [] => EMLErrorKind.FuelExhausted
  | .Multiple [e] => e.kind
  | .Multiple (_ :: e :: rest) => (EMLError.Multiple (e :: rest)).kind

/-- Models EMLError::is_fatal from src/error.rs: every kind except
UnexpectedElement and InvalidValue is fatal, and for a Multiple only the last
error is inspected. -/
def EMLError.is_fatal (e : EMLError) : Bool :=
  match e.kind with
  | .UnexpectedElement _ _ => false
  | .InvalidValue _ _ => false
  | _ => true

/-- Models EMLElementReader::is_resolved_name from src/io/reader.rs, given
the already-resolved name of the inspected element or attribute: local names
must match exactly, and the namespaces must be both present and equal or both
absent. -/
def is_resolved_name (resolved expected : QualifiedName) : Bool :=
  (resolved.local_name == expected.local_name) &&
    (match expected.ns, resolved.ns with
     | some e, some f => e == f
     | none, none => true
     | _, _ => false)

/-- Capability of a field type attached to the typed value store: parse and
serialize, models the StringValueData trait from src/utils/string_value.rs.
The error type of the trait is represented by its display string, matching
the type erasure performed when it is wrapped into InvalidValue. -/
structure SVData (T : Type) where
  parse_from_str : String → Except String T
  to_raw_value : T → String

/-- A typed value stored either raw or parsed, models StringValue from
src/utils/string_value.rs. -/
inductive StringValue (T : Type) where
  | Raw (s : String)
  | Parsed (v : T)
deriving DecidableEq, Repr

/-- Models StringValue::from_raw_parsed: parse now, keep Parsed on success. -/
def StringValue.from_raw_parsed {T : Type} (sv : SVData T) (s : String) :
    Except String (StringValue T) :=
  (sv.parse_from_str s).map StringValue.Parsed

/-- Models StringValue::raw: the raw text is always derivable, by serializing
the parsed value if needed. -/
def StringValue.raw {T : Type} (sv : SVData T) : StringValue T → String
  | .Raw s => s
  | .Parsed v => sv.to_raw_value v

/-- Models StringValue::value: parse on demand when stored raw. -/
def StringValue.value {T : Type} (sv : SVData T) : StringValue T → Except String T
  | .Raw s => sv.parse_from_str s
  | .Parsed v => Except.ok v

/-- One structural event of the XML event stream, modelling quick-xml events
as consumed by EMLReader and EMLElementReader in src/io/reader.rs.  Start and
empty tags carry the raw tag name (the source matches end tags against the raw
start-tag bytes), the qualified name produced by the external namespace
resolver, and the resolved attributes.  Text and CDATA payloads are the
decoded content. -/
inductive Event where
  | start (raw : String) (resolved : QualifiedName)
      (attrs : List (QualifiedName × String))
  | empty (raw : String) (resolved : QualifiedName)
      (attrs : List (QualifiedName × String))
  | endE (raw : String)
  | text (s : String)
  | cdata (s : String)
  | gref (name : String)
  | comment
  | eof
deriving DecidableEq, Repr

/-- The forward cursor over the input events, modelling the NsReader position
inside EMLReader.  When the events are exhausted the cursor keeps yielding the
eof event at the end position, as quick-xml does. -/
structure Cursor where
  events : List (Event × Span)
  endPos : Nat
deriving DecidableEq, Repr

/-- Models one EMLReader::next step (src/io/reader.rs): pull the next event
and its span.  Tokenizer failures of the external library are not modelled;
the input is taken to be a well-tokenized event stream. -/
def Cursor.next (c : Cursor) : (Event × Span) × Cursor :=
  match c.events with
  | [] => ((Event.eof, ⟨c.endPos, c.endPos⟩), c)
  | e :: rest => (e, ⟨rest, c.endPos⟩)

/-- The shared reader state: cursor, fixed parsing mode and the growable list
of accumulated non-fatal errors, models EMLReader from src/io/reader.rs. -/
structure RdState where
  cursor : Cursor
  mode : EMLParsingMode
  errors : List EMLError
deriving Repr

/-- Models EMLElementReader::push_err: append to the accumulated errors of
the shared reader. -/
def RdState.push_err (rd : RdState) (err : EMLError) : RdState :=
  { rd with errors := rd.errors ++ [err] }

/-- Per-element reader state, models EMLElementReader from src/io/reader.rs.
The BytesStart of the source is represented by the raw tag name, the resolved
qualified name and the resolved attributes. -/
structure Elem where
  startRaw : String
  resolved : QualifiedName
  attrs : List (QualifiedName × String)
  depth : Nat
  found_matching_end : Bool
  is_empty : Bool
  span : Span
  last_span : Span
deriving DecidableEq, Repr

/-- Models EMLElementReader::from_start: depth one, and an empty (self
closing) tag starts out already closed. -/
def Elem.from_start (raw : String) (resolved : QualifiedName)
    (attrs : List (QualifiedName × String)) (is_empty : Bool) (span : Span) :
    Elem :=
  { startRaw := raw
    resolved := resolved
    attrs := attrs
    depth := 1
    found_matching_end := is_empty
    is_empty := is_empty
    span := span
    last_span := span }

/-- Models EMLElementReader::inner_span: between the end of the opening tag
and the start of the last consumed event. -/
def Elem.inner_span (e : Elem) : Span :=
  ⟨e.span.stop, e.last_span.start⟩

/-- Models EMLElementReader::full_span. -/
def Elem.full_span (e : Elem) : Span :=
  ⟨e.span.start, e.last_span.stop⟩

/-- Models EMLElementReader::next (src/io/reader.rs lines 617 to 648): once
closed, no further events are read; otherwise pull one event, update the last
span and the depth, fail on eof, and at depth zero an end tag either closes
the element (matching raw name) or is an unexpected end element.  The depth
decrement uses truncated subtraction; the states in which the Rust usize
subtraction would underflow are not reachable through the public operations.
On error the already performed state updates persist, as they do through the
mutable borrow in the source. -/
def Elem.next (e : Elem) (rd : RdState) :
    (Except EMLError (Option (Event × Span))) × Elem × RdState :=
  if e.found_matching_end then (Except.ok none, e, rd)
  else
    let ((evt, span), c) := rd.cursor.next
    let rd := { rd with cursor := c }
    let e := { e with last_span := span }
    let e := match evt with
      | .start _ _ _ => { e with depth := e.depth + 1 }
      | .endE _ => { e with depth := e.depth - 1 }
      | _ => e
    match evt with
    | .eof => (Except.error (EMLError.Positioned .UnexpectedEof span), e, rd)
    | .endE n =>
      if e.depth == 0 then
        if n == e.startRaw then
          (Except.ok none, { e with found_matching_end := true }, rd)
        else
          (Except.error (EMLError.Positioned .UnexpectedEndElement span), e, rd)
      else (Except.ok (some (evt, span)), e, rd)
    | _ => (Except.ok (some (evt, span)), e, rd)

/-- Models the unescaping of a general entity reference performed by
text_without_children: the source formats the name back into entity syntax
and delegates to the unescape routine of the external XML library; the five
predefined XML entities are modelled, anything else is an escape error
(numeric character references are left out, no claim depends on them). -/
def unescape_entity (name : String) : Except String String :=
  if name == "amp" then Except.ok "&"
  else if name == "lt" then Except.ok "<"
  else if name == "gt" then Except.ok ">"
  else if name == "quot" then Except.ok "\""
  else if name == "apos" then Except.ok "\x27"
  else Except.error "unrecognized escape"

/-- Fuel-indexed loop of EMLElementReader::text_without_children: concatenate
text, CDATA and entity content, skip comments, stop at the end of the
element, and fail on any other event type leaving the element partially
consumed.  The fuel is a modelling artifact (see EMLErrorKind.FuelExhausted);
every recursive call consumes one input event. -/
def text_aux : Nat → Elem → RdState → String →
    (Except EMLError String) × Elem × RdState
  | 0, e, rd, _ =>
    (Except.error (EMLError.UnknownPosition .FuelExhausted), e, rd)
  | fuel + 1, e, rd, acc =>
    match Elem.next e rd with
    | (.ok (some (.text s, _)), e, rd) => text_aux fuel e rd (acc ++ s)
    | (.ok (some (.cdata s, _)), e, rd) => text_aux fuel e rd (acc ++ s)
    | (.ok (some (.gref r, span)), e, rd) =>
      match unescape_entity r with
      | .ok s => text_aux fuel e rd (acc ++ s)
      | .error msg =>
        (Except.error (EMLError.Positioned (.EscapeError msg) span), e, rd)
    | (.ok (some (.comment, _)), e, rd) => text_aux fuel e rd acc
    | (.ok none, e, rd) => (Except.ok acc, e, rd)
    | (.ok (some (_, span)), e, rd) =>
      (Except.error (EMLError.Positioned .UnexpectedEvent span), e, rd)
    | (.error err, e, rd) => (Except.error err, e, rd)

/-- Models EMLElementReader::text_without_children. -/
def Elem.text_without_children (e : Elem) (rd : RdState) :
    (Except EMLError String) × Elem × RdState :=
  text_aux (rd.cursor.events.length + 1) e rd ""

/-- Fuel-indexed loop of EMLElementReader::skip: consume events until the end
of the element. -/
def skip_aux : Nat → Elem → RdState → (Except EMLError Unit) × Elem × RdState
  | 0, e, rd =>
    (Except.error (EMLError.UnknownPosition .FuelExhausted), e, rd)
  | fuel + 1, e, rd =>
    match Elem.next e rd with
    | (.ok (some _), e, rd) => skip_aux fuel e rd
    | (.ok none, e, rd) => (Except.ok (), e, rd)
    | (.error err, e, rd) => (Except.error err, e, rd)

/-- Models EMLElementReader::skip. -/
def Elem.skip (e : Elem) (rd : RdState) :
    (Except EMLError Unit) × Elem × RdState :=
  skip_aux (rd.cursor.events.length + 1) e rd

/-- Fuel-indexed loop of EMLElementReader::next_child: pull events until a
child start or empty tag appears (handing out a child reader scoped to that
sub-tree; for a non-empty child the parent depth is decremented because the
child consumes the matching end tag itself), until the element is exhausted,
or until an error occurs; all other events are ignored. -/
def next_child_aux : Nat → Elem → RdState →
    (Except EMLError (Option Elem)) × Elem × RdState
  | 0, e, rd =>
    (Except.error (EMLError.UnknownPosition .FuelExhausted), e, rd)
  | fuel + 1, e, rd =>
    match Elem.next e rd with
    | (.ok (some (.start raw res attrs, span)), e, rd) =>
      (Except.ok (some (Elem.from_start raw res attrs false span)),
        { e with depth := e.depth - 1 }, rd)
    | (.ok (some (.empty raw res attrs, span)), e, rd) =>
      (Except.ok (some (Elem.from_start raw res attrs true span)), e, rd)
    | (.ok (some _), e, rd) => next_child_aux fuel e rd
    | (.ok none, e, rd) => (Except.ok none, e, rd)
    | (.error err, e, rd) => (Except.error err, e, rd)

/-- Models EMLElementReader::next_child. -/
def Elem.next_child (e : Elem) (rd : RdState) :
    (Except EMLError (Option Elem)) × Elem × RdState :=
  next_child_aux (rd.cursor.events.length + 1) e rd

/-- Models EMLElementReader::map_value_error: wrap a parse failure of the
field type into InvalidValue carrying the field name and the span. -/
def map_value_error {T : Type} (res : Except String (StringValue T))
    (name : QualifiedName) (span : Span) : Except EMLError (StringValue T) :=
  res.mapError fun c => EMLError.invalid_value name c (some span)

/-- Models EMLElementReader::string_value_from_text (src/io/reader.rs lines
458 to 480): construction of a typed value from text under the active parsing
mode.  Strict parses now and fails the read on parse failure; StrictFallback
parses now, keeps Parsed on success and on failure records the InvalidValue
error and keeps the raw text; Loose never parses. -/
def Elem.string_value_from_text {T : Type} (sv : SVData T) (e : Elem)
    (rd : RdState) (text : String) (name : Option QualifiedName) (span : Span) :
    (Except EMLError (StringValue T)) × RdState :=
  let name := name.getD e.resolved
  match rd.mode with
  | .Strict =>
    (map_value_error (StringValue.from_raw_parsed sv text) name span, rd)
  | .StrictFallback =>
    match map_value_error (StringValue.from_raw_parsed sv text) name span with
    | .ok v => (Except.ok v, rd)
    | .error err => (Except.ok (StringValue.Raw text), rd.push_err err)
  | .Loose => (Except.ok (StringValue.Raw text), rd)

/-- Helper for the decimal parser: accumulate decimal digits, failing on the
first non-digit character. -/
def digits_to_nat : List Char → Nat → Option Nat
  | [], acc => some acc
  | c :: rest, acc =>
    if c.isDigit then digits_to_nat rest (acc * 10 + (c.toNat - 48)) else none

/-- Decimal value of a non-empty all-digit character list. -/
def chars_to_nat : List Char → Option Nat
  | [] => none
  | l => digits_to_nat l 0

/-- The StringValueData instance for u64 values (src/utils/string_value.rs):
parsing mirrors the unsigned integer parser of the Rust standard library (an
optional leading plus sign, then at least one decimal digit, values that
overflow 64 bits rejected), and serializing is decimal formatting. -/
def u64Data : SVData Nat where
  parse_from_str := fun s =>
    let chars :=
      match s.data with
      | '+' :: rest => rest
      | cs => cs
    match chars_to_nat chars with
    | some n =>
      if n < 2 ^ 64 then Except.ok n
      else Except.error "number too large to fit in target type"
    | none => Except.error "invalid digit found in string"
  to_raw_value := fun n => toString n

/-- Concrete element state used by witnesses. -/
def elemW : Elem := Elem.from_start "F" ⟨"F", none⟩ [] false ⟨0, 3⟩

/-- Concrete StrictFallback reader state used by witnesses. -/
def rdSFW : RdState := ⟨⟨[], 10⟩, .StrictFallback, []⟩

/-- Concrete Loose reader state used by witnesses. -/
def rdLooseW : RdState := ⟨⟨[], 10⟩, .Loose, []⟩

/-- Concrete closed element state used by witnesses (created from a self
closing tag). -/
def elemClosedW : Elem := Elem.from_start "C" ⟨"C", none⟩ [] true ⟨0, 4⟩

/-- Models EMLElementReader::string_value: read the full text content, then
construct the typed value with the inner span (computed after the content has
been consumed) as error position. -/
def Elem.string_value {T : Type} (sv : SVData T) (e : Elem) (rd : RdState) :
    (Except EMLError (StringValue T)) × Elem × RdState :=
  match Elem.text_without_children e rd with
  | (.ok text, e, rd) =>
    let (res, rd) :=
      Elem.string_value_from_text sv e rd text none (Elem.inner_span e)
    (res, e, rd)
  | (.error err, e, rd) => (Except.error err, e, rd)

/-- Namespace configuration of the writer, models NsDefinitions from
src/io/writer.rs.  The hash map from prefix to URI is modelled as an
association list; the source iterates the map in unspecified order and no
claim depends on the order. -/
structure NsDefinitions where
  default_namespace_uri : Option String
  namespace_definitions : List (String × String)
deriving DecidableEq, Repr

/-- The element writer configuration, models EMLWriter from src/io/writer.rs.
The output buffer is modelled separately as the emitted event list. -/
structure EMLWriter where
  ns_definitions : NsDefinitions
deriving DecidableEq, Repr

/-- Models EMLWriter::is_default_namespace. -/
def EMLWriter.is_default_namespace (w : EMLWriter) (ns : Option String) : Bool :=
  match ns, w.ns_definitions.default_namespace_uri with
  | some a, some b => a == b
  | none, none => true
  | _, _ => false

/-- Models EMLWriter::has_default_namespace. -/
def EMLWriter.has_default_namespace (w : EMLWriter) : Bool :=
  w.ns_definitions.default_namespace_uri.isSome

/-- Models EMLWriter::resolve_namespace_prefix from src/io/writer.rs (lines
35 to 57): the default namespace resolves to no prefix for elements and is an
error for attributes; any other namespace is looked up in the prefix table,
and a missing entry is an UnknownNamespace error.  Writing-side errors carry
no position, as in the source. -/
def EMLWriter.namespacePrefixOf (w : EMLWriter) (ns : String)
    (is_attribute : Bool) : Except EMLError (Option String) :=
  if w.is_default_namespace (some ns) then
    if is_attribute then
      Except.error (EMLError.UnknownPosition .AttributeNamespaceError)
    else Except.ok none
  else
    match w.ns_definitions.namespace_definitions.find? (fun pu => pu.2 == ns) with
    | some pu => Except.ok (some pu.1)
    | none => Except.error (EMLError.UnknownPosition (.UnknownNamespace ns))

/-- Models EMLWriter::format_qname: resolve the namespace (when present) to a
prefix and prepend it to the local name. -/
def EMLWriter.format_qname (w : EMLWriter) (name : QualifiedName)
    (is_attribute : Bool) : Except EMLError String :=
  match name.ns with
  | none => Except.ok name.local_name
  | some ns =>
    match w.namespacePrefixOf ns is_attribute with
    | .error e => Except.error e
    | .ok none => Except.ok name.local_name
    | .ok (some p) => Except.ok (p ++ ":" ++ name.local_name)

/-- Models EMLElementWriter::new from src/io/writer.rs (lines 109 to 123):
format the element name first, then reject an element without a namespace
while a default namespace is configured.  The result is the formatted start
tag name. -/
def EMLElementWriter.new (w : EMLWriter) (name : QualifiedName) :
    Except EMLError String :=
  match w.format_qname name false with
  | .error e => Except.error e
  | .ok elem_name =>
    if name.ns.isNone && w.has_default_namespace then
      Except.error (EMLError.UnknownPosition .ElementNamespaceError)
    else Except.ok elem_name

/-- Namespace URI constants from src/lib.rs. -/
def NS_EML : String := "urn:oasis:names:tc:evs:schema:eml"

/-- Namespace URI for the Kiesraad extensions (src/lib.rs). -/
def NS_KR : String := "http://www.kiesraad.nl/extensions"

/-- Namespace URI for xAL (src/lib.rs). -/
def NS_XAL : String := "urn:oasis:names:tc:ciq:xsdschema:xAL:2.0"

/-- Namespace URI for xNL (src/lib.rs). -/
def NS_XNL : String := "urn:oasis:names:tc:ciq:xsdschema:xNL:2.0"

/-- The default namespace configuration installed by write_root
(src/io/writer.rs lines 296 to 315). -/
def default_ns_definitions : NsDefinitions :=
  ⟨some NS_EML, [("kr", NS_KR), ("xal", NS_XAL), ("xnl", NS_XNL)]⟩

/-- One event emitted by the writer (before byte-level rendering by the
external library). -/
inductive WEvent where
  | wstart (name : String) (attrs : List (String × String))
  | wtext (s : String)
  | wend (name : String)
deriving DecidableEq, Repr

/-- The result of a top-level read, models EMLReadResult from
src/io/reader.rs: success with the accumulated non-fatal errors, or failure
with a fatal (possibly aggregated) error. -/
inductive EMLReadResult (T : Type) where
  | Ok (value : T) (errors : List EMLError)
  | Err (error : EMLError)
deriving Repr

/-- Models the tail of the blanket parse_eml implementation (src/io/reader.rs
lines 91 to 100): on success return the value together with the accumulated
non-fatal errors; on failure return the fatal error alone when nothing was
accumulated, otherwise fold the accumulated errors and the fatal cause into
one aggregate via from_vec_with_additional. -/
def finish_parse {T : Type} (res : Except EMLError T)
    (errors : List EMLError) : EMLReadResult T :=
  match res with
  | .ok doc => EMLReadResult.Ok doc errors
  | .error e =>
    if errors.isEmpty then EMLReadResult.Err e
    else EMLReadResult.Err (EMLError.from_vec_with_additional errors e)

/-- Fuel-indexed translation of EMLReader::next_element: pull events until a
start or empty tag appears, ignoring everything else.  The source keeps
looping at end of input (quick-xml keeps yielding Eof and the source ignores
it like any other non-start event); totality forces an explicit exit on eof
here, and no theorem depends on that branch. -/
def next_element_aux : Nat → RdState → (Except EMLError Elem) × RdState
  | 0, rd => (Except.error (EMLError.UnknownPosition .FuelExhausted), rd)
  | fuel + 1, rd =>
    let ((evt, span), c) := rd.cursor.next
    let rd := { rd with cursor := c }
    match evt with
    | .start raw res attrs =>
      (Except.ok (Elem.from_start raw res attrs false span), rd)
    | .empty raw res attrs =>
      (Except.ok (Elem.from_start raw res attrs true span), rd)
    | .eof => (Except.error (EMLError.Positioned .UnexpectedEof span), rd)
    | _ => next_element_aux fuel rd

/-- Qualified name of the EML root element. -/
def qnEML : QualifiedName := ⟨"EML", some NS_EML⟩

/-- Qualified name of the TransactionId element (common/transaction_id.rs). -/
def qnTransactionId : QualifiedName := ⟨"TransactionId", some NS_EML⟩

/-- Minimal schema binding exercising the field-binding protocol of the core:
a root element with one required child TransactionId holding a u64 typed
value, mirroring the TransactionId binding (common/transaction_id.rs) wired
through the collect_struct macro of src/io/reader.rs. -/
structure MiniDoc where
  transaction_id : StringValue Nat
deriving DecidableEq, Repr

/-- Fuel-indexed translation of the child-collection loop emitted by the
collect_struct macro (src/io/reader.rs lines 722 to 743) for the single
required slot TransactionId: pull children one by one; a child whose resolved
name equals the slot name is read via string_value and then skipped
(overwriting any earlier value, as the macro assignment does); a child
matching no slot causes an UnexpectedElement error, carrying the found name
and the enclosing element name and positioned at the child start tag, to be
pushed to the accumulated errors, after which the child is skipped and
iteration continues.  The source macro performs no parsing-mode check in the
unknown-child branch: the error is recorded and the child skipped in every
mode, including Strict. -/
def collect_mini_aux : Nat → Option (StringValue Nat) → QualifiedName →
    Elem → RdState →
    (Except EMLError (Option (StringValue Nat))) × Elem × RdState
  | 0, _, _, root, rd =>
    (Except.error (EMLError.UnknownPosition .FuelExhausted), root, rd)
  | fuel + 1, acc, elem_name, root, rd =>
    match Elem.next_child root rd with
    | (.ok (some child), root, rd) =>
      if child.resolved = qnTransactionId then
        match Elem.string_value u64Data child rd with
        | (.ok v, child, rd) =>
          match Elem.skip child rd with
          | (.ok _, _, rd) => collect_mini_aux fuel (some v) elem_name root rd
          | (.error err, _, rd) => (Except.error err, root, rd)
        | (.error err, _, rd) => (Except.error err, root, rd)
      else
        let rd := rd.push_err (EMLError.Positioned
          (.UnexpectedElement child.resolved elem_name) child.span)
        match Elem.skip child rd with
        | (.ok _, _, rd) => collect_mini_aux fuel acc elem_name root rd
        | (.error err, _, rd) => (Except.error err, root, rd)
    | (.ok none, root, rd) => (Except.ok acc, root, rd)
    | (.error err, root, rd) => (Except.error err, root, rd)

/-- The read routine of the minimal binding: run the collection loop, then
raise MissingElement positioned at the last consumed span if the required
slot stayed empty (the assignment phase of collect_struct). -/
def MiniDoc.read_eml_element (root : Elem) (rd : RdState) :
    (Except EMLError MiniDoc) × Elem × RdState :=
  let elem_name := root.resolved
  match collect_mini_aux (rd.cursor.events.length + 1) none elem_name root rd with
  | (.ok (some v), root, rd) => (Except.ok ⟨v⟩, root, rd)
  | (.ok none, root, rd) =>
    (Except.error (EMLError.Positioned (.MissingElement qnTransactionId)
      root.last_span), root, rd)
  | (.error err, root, rd) => (Except.error err, root, rd)

/-- Models EMLRead::parse_eml (src/io/reader.rs lines 84 to 101) for the
minimal binding: initialise the reader with the fixed parsing mode and an
empty error list, position on the root element, run the read routine of the
binding, then finish via finish_parse. -/
def MiniDoc.parse_eml (mode : EMLParsingMode) (input : Cursor) :
    EMLReadResult MiniDoc :=
  let rd : RdState := ⟨input, mode, []⟩
  match next_element_aux (rd.cursor.events.length + 1) rd with
  | (.ok root, rd) =>
    match MiniDoc.read_eml_element root rd with
    | (.ok doc, _, rd) => finish_parse (Except.ok doc) rd.errors
    | (.error e, _, rd) => finish_parse (Except.error e) rd.errors
  | (.error e, rd) => finish_parse (Except.error e) rd.errors

/-- The namespace declaration attributes written on the root element by
write_root (default namespace plus the fixed prefix table). -/
def root_xmlns_attrs : List (String × String) :=
  [("xmlns", NS_EML), ("xmlns:kr", NS_KR), ("xmlns:xal", NS_XAL),
   ("xmlns:xnl", NS_XNL)]

/-- The writer event sequence of the minimal document whose transaction id
has the given raw text. -/
def mini_wevents (s : String) : List WEvent :=
  [WEvent.wstart "EML" root_xmlns_attrs,
   WEvent.wstart "TransactionId" [],
   WEvent.wtext s,
   WEvent.wend "TransactionId",
   WEvent.wend "EML"]

/-- Models the write path of the minimal binding through
EMLWriteInternal::write_root (src/io/writer.rs lines 288 to 341) with the
default EML root configuration, pretty printing off and no XML declaration:
resolve the root and child names against the writer namespace table, emit the
root start tag carrying the default namespace declaration and the auxiliary
prefix declarations as attributes, then the TransactionId child with its raw
text (the TransactionId binding writes value.raw()), then the matching end
tags.  Byte-level rendering of the events belongs to the external library:
serialization is modelled down to the emitted event sequence. -/
def MiniDoc.write_root (doc : MiniDoc) : Except EMLError (List WEvent) :=
  let w : EMLWriter := ⟨default_ns_definitions⟩
  match EMLElementWriter.new w qnEML with
  | .error e => Except.error e
  | .ok root_name =>
    match EMLElementWriter.new w qnTransactionId with
    | .error e => Except.error e
    | .ok child_name =>
      let root_attrs := ("xmlns", NS_EML) ::
        default_ns_definitions.namespace_definitions.map
          (fun pu => ("xmlns:" ++ pu.1, pu.2))
      Except.ok [WEvent.wstart root_name root_attrs,
        WEvent.wstart child_name [],
        WEvent.wtext (StringValue.raw u64Data doc.transaction_id),
        WEvent.wend child_name,
        WEvent.wend root_name]

/-- Leading characters of a raw name up to the first colon. -/
def before_colon (l : List Char) : List Char :=
  l.takeWhile (fun c => c != ':')

/-- Characters of a raw name after the first colon. -/
def after_colon (l : List Char) : List Char :=
  (l.dropWhile (fun c => c != ':')).drop 1

/-- Models the resolution performed by the external XML reader on the writer
output, where the root element declares the default namespace and the fixed
prefix table: an unprefixed element name resolves to the default namespace
and a prefixed name resolves through the table (an unknown prefix, which the
writer never emits, resolves to no namespace). -/
def resolve_raw_name (raw : String) : QualifiedName :=
  if raw.data.contains (Char.ofNat 58) then
    let p := String.mk (before_colon raw.data)
    let l := String.mk (after_colon raw.data)
    match default_ns_definitions.namespace_definitions.find?
        (fun pu => pu.1 == p) with
    | some pu => ⟨l, some pu.2⟩
    | none => ⟨l, none⟩
  else ⟨raw, some NS_EML⟩

/-- Resolution of a written attribute: an unprefixed attribute is in no
namespace.  The xmlns declaration attributes keep their raw names; the
bindings never read them. -/
def resolve_attr (a : String × String) : QualifiedName × String :=
  (⟨a.1, none⟩, a.2)

/-- One writer event turned back into a reader event; spans are assigned by
event index, the parsed value does not depend on them. -/
def resolve_wevent (i : Nat) (we : WEvent) : Event × Span :=
  match we with
  | .wstart n attrs =>
    (Event.start n (resolve_raw_name n) (attrs.map resolve_attr), ⟨i, i + 1⟩)
  | .wtext s => (Event.text s, ⟨i, i + 1⟩)
  | .wend n => (Event.endE n, ⟨i, i + 1⟩)

/-- The external XML round trip from writer output back to reader input. -/
def resolve_stream (ws : List WEvent) : Cursor :=
  ⟨ws.enum.map (fun p => resolve_wevent p.1 p.2), ws.length⟩

/-- Qualified name of the unexpected extra element used in the scenarios. -/
def qnBogus : QualifiedName := ⟨"Bogus", some NS_EML⟩

/-- Event stream of the scenario document with one extra unexpected sibling:
the minimal valid document with an additional self-closing Bogus element
inside EML. -/
def extra_child_events : List (Event × Span) :=
  [(Event.start "EML" qnEML
      [(⟨"Id", none⟩, "230b"), (⟨"SchemaVersion", none⟩, "5")], ⟨0, 38⟩),
   (Event.start "TransactionId" qnTransactionId [], ⟨38, 53⟩),
   (Event.text "1", ⟨53, 54⟩),
   (Event.endE "TransactionId", ⟨54, 70⟩),
   (Event.empty "Bogus" qnBogus [], ⟨70, 78⟩),
   (Event.endE "EML", ⟨78, 84⟩)]

/-- Cursor over the extra-sibling scenario document. -/
def extra_child_cursor : Cursor := ⟨extra_child_events, 84⟩

/-- The recorded error for the extra-sibling scenario. -/
def extra_child_error : EMLError :=
  EMLError.Positioned (.UnexpectedElement qnBogus qnEML) ⟨70, 78⟩

/-- Event stream of the minimal document whose TransactionId content is the
unparsable text x. -/
def raw_x_events : List (Event × Span) :=
  [(Event.start "EML" qnEML
      [(⟨"Id", none⟩, "230b"), (⟨"SchemaVersion", none⟩, "5")], ⟨0, 38⟩),
   (Event.start "TransactionId" qnTransactionId [], ⟨38, 53⟩),
   (Event.text "x", ⟨53, 54⟩),
   (Event.endE "TransactionId", ⟨54, 70⟩),
   (Event.endE "EML", ⟨70, 76⟩)]

/-- Cursor over the unparsable-content document. -/
def raw_x_cursor : Cursor := ⟨raw_x_events, 76⟩

end EMLNL

namespace EMLNL

/-- C8: qualified-name equality is structural and total on both fields, two
names are equal iff their local names are exactly equal and their namespaces
are exactly equal (both present with equal URIs or both absent); a name with a
namespace never equals a name without one; and the comparison rule used for
dispatch (is_resolved_name) decides exactly this structural equality. -/
theorem qualified_name_equality_structural :
    (∀ a b : QualifiedName,
      a = b ↔ a.local_name = b.local_name ∧ a.ns = b.ns) ∧
    (∀ l : String, ∀ n : String,
      (⟨l, some n⟩ : QualifiedName) ≠ (⟨l, none⟩ : QualifiedName)) ∧
    (∀ a b : QualifiedName, is_resolved_name a b = true ↔ a = b) := by
  refine ⟨?_, ?_, ?_⟩
  · intro a b
    constructor
    · intro h; rw [h]; exact ⟨rfl, rfl⟩
    · intro ⟨h1, h2⟩
      cases a; cases b
      simp_all
  · intro l n h
    simp at h
  · intro a b
    constructor
    · intro h
      cases a with
      | mk al ans =>
        cases b with
        | mk bl bns =>
          cases ans with
          | none =>
            cases bns with
            | none =>
              simp only [is_resolved_name, Bool.and_eq_true, beq_iff_eq] at h
              simp [h.1]
            | some y =>
              simp [is_resolved_name] at h
          | some x =>
            cases bns with
            | none =>
              simp [is_resolved_name] at h
            | some y =>
              simp only [is_resolved_name, Bool.and_eq_true, beq_iff_eq] at h
              obtain ⟨h1, h2⟩ := h
              subst h1
              subst h2
              rfl
    · intro h
      cases h
      cases a with
      | mk al ans =>
        cases ans <;> simp [is_resolved_name]

theorem from_vec_empty (e : EMLError) :
    EMLError.from_vec_with_additional [] e = e := by
  simp [EMLError.from_vec_with_additional]

theorem from_vec_cons (a : EMLError) (t : List EMLError) (e : EMLError) :
    EMLError.from_vec_with_additional (a :: t) e =
      EMLError.Multiple ((a :: t) ++ [e]) := by
  simp [EMLError.from_vec_with_additional]

/-- C1: typed-value construction follows the active parsing mode.  Under
Strict a parse failure fails the read with InvalidValue (and a success is
stored as Parsed); under StrictFallback a success is stored as Parsed and a
failure records InvalidValue in the accumulated errors while the value is
stored as Raw with the original text and the read succeeds; under Loose no
parse outcome matters and the value is always Raw with the original text. -/
theorem string_value_mode_policy {T : Type} (sv : SVData T) (e : Elem)
    (rd : RdState) (text : String) (span : Span) :
    (∀ v : T, rd.mode = .Strict → sv.parse_from_str text = .ok v →
      Elem.string_value_from_text sv e rd text none span =
        (Except.ok (StringValue.Parsed v), rd)) ∧
    (∀ c : String, rd.mode = .Strict → sv.parse_from_str text = .error c →
      Elem.string_value_from_text sv e rd text none span =
        (Except.error
          (EMLError.Positioned (.InvalidValue e.resolved c) span), rd)) ∧
    (∀ v : T, rd.mode = .StrictFallback → sv.parse_from_str text = .ok v →
      Elem.string_value_from_text sv e rd text none span =
        (Except.ok (StringValue.Parsed v), rd)) ∧
    (∀ c : String, rd.mode = .StrictFallback → sv.parse_from_str text = .error c →
      Elem.string_value_from_text sv e rd text none span =
        (Except.ok (StringValue.Raw text),
          { rd with errors := rd.errors ++
            [EMLError.Positioned (.InvalidValue e.resolved c) span] })) ∧
    (rd.mode = .Loose →
      Elem.string_value_from_text sv e rd text none span =
        (Except.ok (StringValue.Raw text), rd)) := by
  refine ⟨?_, ?_, ?_, ?_, ?_⟩
  · intro v hm hp
    simp [Elem.string_value_from_text, hm, map_value_error,
      StringValue.from_raw_parsed, hp, Except.map, Except.mapError,
      EMLError.invalid_value]
  · intro c hm hp
    simp [Elem.string_value_from_text, hm, map_value_error,
      StringValue.from_raw_parsed, hp, Except.map, Except.mapError,
      EMLError.invalid_value]
  · intro v hm hp
    simp [Elem.string_value_from_text, hm, map_value_error,
      StringValue.from_raw_parsed, hp, Except.map, Except.mapError,
      EMLError.invalid_value]
  · intro c hm hp
    simp [Elem.string_value_from_text, hm, map_value_error,
      StringValue.from_raw_parsed, hp, Except.map, Except.mapError,
      EMLError.invalid_value, RdState.push_err]
  · intro hm
    simp [Elem.string_value_from_text, hm]

/-- Witness for C1 at concrete inputs: a parse failure under StrictFallback
stores the raw text and records the InvalidValue error, and under Loose the
raw text is stored. -/
theorem string_value_mode_policy_witness :
    (Elem.string_value_from_text u64Data elemW rdSFW "x" none ⟨3, 4⟩ =
      (Except.ok (StringValue.Raw "x"),
        { rdSFW with errors := rdSFW.errors ++
          [EMLError.Positioned
            (.InvalidValue elemW.resolved "invalid digit found in string")
            ⟨3, 4⟩] })) ∧
    (Elem.string_value_from_text u64Data elemW rdLooseW "x" none ⟨3, 4⟩ =
      (Except.ok (StringValue.Raw "x"), rdLooseW)) := by
  constructor
  · exact (string_value_mode_policy u64Data elemW rdSFW "x"
      ⟨3, 4⟩).2.2.2.1 "invalid digit found in string" rfl rfl
  · exact (string_value_mode_policy u64Data elemW rdLooseW "x"
      ⟨3, 4⟩).2.2.2.2 rfl

end EMLNL

namespace EMLNL

/-- C6: while reading the events of an element, an end tag at nesting depth
zero whose raw name matches the start-tag name closes the element (no event
and no error are returned); a non-matching end tag at depth zero is an
UnexpectedEndElement error; and end of input before the element is closed is
an UnexpectedEof error, in each case tagged with the span of the offending
event. -/
theorem elem_next_close_policy (nm : String) (q : QualifiedName)
    (ats : List (QualifiedName × String)) (ie : Bool) (sp0 ls : Span)
    (mode : EMLParsingMode) (errs : List EMLError) (endPos : Nat) :
    (∀ (sp : Span) (rest : List (Event × Span)),
      Elem.next ⟨nm, q, ats, 1, false, ie, sp0, ls⟩
          ⟨⟨(Event.endE nm, sp) :: rest, endPos⟩, mode, errs⟩ =
        (Except.ok none, ⟨nm, q, ats, 0, true, ie, sp0, sp⟩,
          ⟨⟨rest, endPos⟩, mode, errs⟩)) ∧
    (∀ (n : String) (sp : Span) (rest : List (Event × Span)),
      (n == nm) = false →
      Elem.next ⟨nm, q, ats, 1, false, ie, sp0, ls⟩
          ⟨⟨(Event.endE n, sp) :: rest, endPos⟩, mode, errs⟩ =
        (Except.error (EMLError.Positioned .UnexpectedEndElement sp),
          ⟨nm, q, ats, 0, false, ie, sp0, sp⟩,
          ⟨⟨rest, endPos⟩, mode, errs⟩)) ∧
    (Elem.next ⟨nm, q, ats, 1, false, ie, sp0, ls⟩
          ⟨⟨[], endPos⟩, mode, errs⟩ =
        (Except.error (EMLError.Positioned .UnexpectedEof ⟨endPos, endPos⟩),
          ⟨nm, q, ats, 1, false, ie, sp0, ⟨endPos, endPos⟩⟩,
          ⟨⟨[], endPos⟩, mode, errs⟩)) := by
  refine ⟨?_, ?_, ?_⟩
  · intro sp rest
    simp [Elem.next, Cursor.next]
  · intro n sp rest h
    simp [Elem.next, Cursor.next, h]
  · simp [Elem.next, Cursor.next]

/-- Witness for C6 at concrete inputs: a non-matching end tag at depth zero
produces UnexpectedEndElement carrying the span of that end tag. -/
theorem elem_next_close_policy_witness :
    ((("Q" : String) == "P") = false) ∧
    Elem.next ⟨"P", ⟨"P", none⟩, [], 1, false, false, ⟨0, 3⟩, ⟨0, 3⟩⟩
        ⟨⟨[(Event.endE "Q", ⟨7, 10⟩)], 10⟩, .Strict, []⟩ =
      (Except.error (EMLError.Positioned .UnexpectedEndElement ⟨7, 10⟩),
        ⟨"P", ⟨"P", none⟩, [], 0, false, false, ⟨0, 3⟩, ⟨7, 10⟩⟩,
        ⟨⟨[], 10⟩, .Strict, []⟩) :=
  ⟨by decide,
    (elem_next_close_policy "P" ⟨"P", none⟩ [] false ⟨0, 3⟩ ⟨0, 3⟩
      .Strict [] 10).2.1 "Q" ⟨7, 10⟩ [] (by decide)⟩

/-- C10: a closed element reader stays closed, whether it consumed its
matching end tag or was created from a self-closing tag: next yields no
event, next_child yields no child, text_without_children yields the empty
string and skip succeeds, all leaving the element and the shared reader state
(including the input cursor) untouched. -/
theorem closed_element_stays_closed (e : Elem) (rd : RdState) :
    (∀ (raw : String) (res : QualifiedName)
        (ats : List (QualifiedName × String)) (sp : Span),
      (Elem.from_start raw res ats true sp).found_matching_end = true) ∧
    (e.found_matching_end = true →
      Elem.next e rd = (Except.ok none, e, rd) ∧
      Elem.next_child e rd = (Except.ok none, e, rd) ∧
      Elem.text_without_children e rd = (Except.ok "", e, rd) ∧
      Elem.skip e rd = (Except.ok (), e, rd)) := by
  constructor
  · intro raw res ats sp
    simp [Elem.from_start]
  · intro h
    refine ⟨?_, ?_, ?_, ?_⟩
    · simp [Elem.next, h]
    · simp [Elem.next_child, next_child_aux, Elem.next, h]
    · simp [Elem.text_without_children, text_aux, Elem.next, h]
    · simp [Elem.skip, skip_aux, Elem.next, h]

/-- Witness for C10: the operations on a concrete element created from a
self-closing tag all return immediately without touching the state. -/
theorem closed_element_stays_closed_witness :
    Elem.next elemClosedW rdSFW = (Except.ok none, elemClosedW, rdSFW) ∧
    Elem.next_child elemClosedW rdSFW = (Except.ok none, elemClosedW, rdSFW) ∧
    Elem.text_without_children elemClosedW rdSFW =
      (Except.ok "", elemClosedW, rdSFW) ∧
    Elem.skip elemClosedW rdSFW = (Except.ok (), elemClosedW, rdSFW) :=
  (closed_element_stays_closed elemClosedW rdSFW).2 rfl

/-- C7: when the text content of an element is unparsable and occupies the
byte range from a to b of the input (the opening tag ending at a and the
closing tag starting at b), the InvalidValue error, returned under Strict and
recorded under StrictFallback, carries exactly the span from a to b: the
inner content span between the tags, excluding both tags. -/
theorem invalid_value_span_inner (T : Type) (sv : SVData T) (nm : String)
    (q : QualifiedName) (ats : List (QualifiedName × String))
    (s0 a b c2 endPos : Nat) (ls : Span) (t c : String)
    (rest : List (Event × Span)) (errs : List EMLError) :
    sv.parse_from_str t = Except.error c →
    ((Elem.string_value sv ⟨nm, q, ats, 1, false, false, ⟨s0, a⟩, ls⟩
        ⟨⟨[(Event.text t, ⟨a, b⟩), (Event.endE nm, ⟨b, c2⟩)] ++ rest, endPos⟩,
          .Strict, errs⟩).1 =
      Except.error (EMLError.Positioned (.InvalidValue q c) ⟨a, b⟩)) ∧
    (∃ e2 rd2,
      Elem.string_value sv ⟨nm, q, ats, 1, false, false, ⟨s0, a⟩, ls⟩
        ⟨⟨[(Event.text t, ⟨a, b⟩), (Event.endE nm, ⟨b, c2⟩)] ++ rest, endPos⟩,
          .StrictFallback, errs⟩ =
        (Except.ok (StringValue.Raw t), e2, rd2) ∧
      rd2.errors = errs ++
        [EMLError.Positioned (.InvalidValue q c) ⟨a, b⟩]) := by
  intro hp
  constructor
  · simp [Elem.string_value, Elem.text_without_children, text_aux,
      Elem.next, Cursor.next, Elem.string_value_from_text, map_value_error,
      StringValue.from_raw_parsed, Except.map, Except.mapError,
      EMLError.invalid_value, Elem.inner_span, String.empty_append, hp]
  · refine ⟨⟨nm, q, ats, 0, true, false, ⟨s0, a⟩, ⟨b, c2⟩⟩,
      ⟨⟨rest, endPos⟩, .StrictFallback,
        errs ++ [EMLError.Positioned (.InvalidValue q c) ⟨a, b⟩]⟩, ?_, ?_⟩
    · simp [Elem.string_value, Elem.text_without_children, text_aux,
        Elem.next, Cursor.next, Elem.string_value_from_text, map_value_error,
        StringValue.from_raw_parsed, Except.map, Except.mapError,
        EMLError.invalid_value, Elem.inner_span, String.empty_append, hp,
        RdState.push_err]
    · rfl

end EMLNL

namespace EMLNL

/-- Witness for C7 at concrete offsets: unparsable content at byte range 3 to
4 yields an InvalidValue error whose span is exactly 3 to 4. -/
theorem invalid_value_span_inner_witness :
    (u64Data.parse_from_str "x" =
      Except.error "invalid digit found in string") ∧
    ((Elem.string_value u64Data
        ⟨"F", ⟨"F", none⟩, [], 1, false, false, ⟨0, 3⟩, ⟨0, 3⟩⟩
        ⟨⟨[(Event.text "x", ⟨3, 4⟩), (Event.endE "F", ⟨4, 8⟩)], 8⟩,
          .Strict, []⟩).1 =
      Except.error
        (EMLError.Positioned
          (.InvalidValue ⟨"F", none⟩ "invalid digit found in string")
          ⟨3, 4⟩)) :=
  ⟨rfl,
    (invalid_value_span_inner Nat u64Data "F" ⟨"F", none⟩ [] 0 3 4 8 8
      ⟨0, 3⟩ "x" "invalid digit found in string" [] [] rfl).1⟩

end EMLNL

namespace EMLNL

/-- C3: the top-level parse folds accumulated non-fatal errors and the fatal
cause into a Multiple with the fatal cause last; with no accumulated errors
the fatal error is returned unwrapped; from_vec_with_additional on an empty
list is the identity on the final error, and a Multiple it builds itself
always has at least two elements. -/
theorem error_aggregation_policy :
    (∀ e : EMLError, EMLError.from_vec_with_additional [] e = e) ∧
    (∀ (errs : List EMLError) (e : EMLError), errs ≠ [] →
      EMLError.from_vec_with_additional errs e =
        EMLError.Multiple (errs ++ [e])) ∧
    (∀ (errs : List EMLError) (e : EMLError) (l : List EMLError),
      EMLError.from_vec_with_additional errs e = EMLError.Multiple l →
      2 ≤ l.length ∨ EMLError.Multiple l = e) ∧
    (∀ (T : Type) (e : EMLError) (errs : List EMLError), errs ≠ [] →
      @finish_parse T (Except.error e) errs =
        EMLReadResult.Err (EMLError.Multiple (errs ++ [e]))) ∧
    (∀ (T : Type) (e : EMLError),
      @finish_parse T (Except.error e) [] = EMLReadResult.Err e) := by
  have hvec : ∀ (errs : List EMLError) (e : EMLError), errs ≠ [] →
      EMLError.from_vec_with_additional errs e =
        EMLError.Multiple (errs ++ [e]) := by
    intro errs e h
    cases errs with
    | nil => exact absurd rfl h
    | cons a t => exact from_vec_cons a t e
  refine ⟨from_vec_empty, hvec, ?_, ?_, ?_⟩
  · intro errs e l h
    cases errs with
    | nil =>
      right
      rw [from_vec_empty] at h
      exact h.symm
    | cons a t =>
      left
      rw [from_vec_cons] at h
      cases h
      simp
  · intro T e errs h
    cases errs with
    | nil => exact absurd rfl h
    | cons a t =>
      simp [finish_parse, from_vec_cons]
  · intro T e
    simp [finish_parse, from_vec_empty]

/-- Witness for C3 at concrete errors: one accumulated error and a fatal
cause fold into a two-element Multiple with the fatal cause last, and with an
empty accumulator the fatal error comes back unwrapped. -/
theorem error_aggregation_policy_witness :
    (([EMLError.UnknownPosition .UnexpectedEof] : List EMLError) ≠ []) ∧
    EMLError.from_vec_with_additional [EMLError.UnknownPosition .UnexpectedEof]
        (EMLError.UnknownPosition .InvalidRootElement) =
      EMLError.Multiple [EMLError.UnknownPosition .UnexpectedEof,
        EMLError.UnknownPosition .InvalidRootElement] ∧
    EMLError.from_vec_with_additional []
        (EMLError.UnknownPosition .InvalidRootElement) =
      EMLError.UnknownPosition .InvalidRootElement :=
  ⟨by simp,
    error_aggregation_policy.2.1 [EMLError.UnknownPosition .UnexpectedEof]
      (EMLError.UnknownPosition .InvalidRootElement) (by simp),
    error_aggregation_policy.1 (EMLError.UnknownPosition .InvalidRootElement)⟩

/-- C2 (divergence witness): on the scenario document that parses cleanly
except for one extra unexpected sibling element, the parse under Strict does
NOT fail: the unknown-child branch of collect_struct records the
UnexpectedElement error (found name and enclosing name, at the child start
tag) and skips the child in every mode, so Strict yields the same successful
result with one recorded error as StrictFallback, while the claim and the
specification require the Strict read to fail immediately. -/
theorem unknown_child_not_fatal_under_strict :
    MiniDoc.parse_eml .Strict extra_child_cursor =
      EMLReadResult.Ok ⟨StringValue.Parsed 1⟩ [extra_child_error] := rfl

/-- C4 (divergence witness): mode monotonicity fails on the code.  On the
extra-sibling document, the parse under Strict succeeds, yet the parse under
StrictFallback succeeds with a NON-empty non-fatal error list (the same
UnexpectedElement), contradicting the claim that a Strict success implies a
StrictFallback success with an empty non-fatal-error list. -/
theorem mode_monotonicity_fails :
    MiniDoc.parse_eml .Strict extra_child_cursor =
      EMLReadResult.Ok ⟨StringValue.Parsed 1⟩ [extra_child_error] ∧
    MiniDoc.parse_eml .StrictFallback extra_child_cursor =
      EMLReadResult.Ok ⟨StringValue.Parsed 1⟩ [extra_child_error] ∧
    ([extra_child_error] : List EMLError) ≠ [] :=
  ⟨rfl, rfl, by simp⟩

/-- C5 (counterexample): the round trip fails for a value that the binding
can produce.  The document whose TransactionId content is the unparsable text
x parses under Loose to the value with the Raw transaction id (so that value
is producible), serializing that value emits the raw text back, and parsing
the serialized output under Strict fails with InvalidValue instead of
returning the value. -/
theorem roundtrip_fails_on_raw_value :
    MiniDoc.parse_eml .Loose raw_x_cursor =
      EMLReadResult.Ok ⟨StringValue.Raw "x"⟩ [] ∧
    MiniDoc.write_root ⟨StringValue.Raw "x"⟩ =
      Except.ok (mini_wevents "x") ∧
    MiniDoc.parse_eml .Strict (resolve_stream (mini_wevents "x")) =
      EMLReadResult.Err (EMLError.Positioned
        (.InvalidValue qnTransactionId "invalid digit found in string")
        ⟨2, 3⟩) :=
  ⟨rfl, rfl, rfl⟩

/-- C5 (amended): for every value of the binding whose typed field is in
Parsed form (with the field type parser inverting its serializer at that
value), serializing with pretty printing off and no XML declaration and then
parsing the output under Strict yields exactly the original value with no
non-fatal errors. -/
theorem roundtrip_parsed_value (v : Nat)
    (hv : u64Data.parse_from_str (u64Data.to_raw_value v) = Except.ok v) :
    MiniDoc.write_root ⟨StringValue.Parsed v⟩ =
      Except.ok (mini_wevents (u64Data.to_raw_value v)) ∧
    MiniDoc.parse_eml .Strict
        (resolve_stream (mini_wevents (u64Data.to_raw_value v))) =
      EMLReadResult.Ok ⟨StringValue.Parsed v⟩ [] := by
  constructor
  · rfl
  · have hres : resolve_stream (mini_wevents (u64Data.to_raw_value v)) =
        ⟨[(Event.start "EML" qnEML
            [(⟨"xmlns", none⟩, NS_EML), (⟨"xmlns:kr", none⟩, NS_KR),
             (⟨"xmlns:xal", none⟩, NS_XAL), (⟨"xmlns:xnl", none⟩, NS_XNL)],
            ⟨0, 1⟩),
          (Event.start "TransactionId" qnTransactionId [], ⟨1, 2⟩),
          (Event.text (u64Data.to_raw_value v), ⟨2, 3⟩),
          (Event.endE "TransactionId", ⟨3, 4⟩),
          (Event.endE "EML", ⟨4, 5⟩)], 5⟩ := rfl
    rw [hres]
    simp [MiniDoc.parse_eml, next_element_aux, Cursor.next, Elem.from_start,
      MiniDoc.read_eml_element, collect_mini_aux, Elem.next_child,
      next_child_aux, Elem.next, Elem.string_value,
      Elem.text_without_children, text_aux, Elem.string_value_from_text,
      map_value_error, StringValue.from_raw_parsed, Except.map,
      Except.mapError, EMLError.invalid_value, Elem.skip, skip_aux,
      Elem.inner_span, finish_parse, String.empty_append, hv,
      qnEML, qnTransactionId]

/-- Witness for C5 amended at the transaction id one: serializing and then
parsing under Strict returns the value unchanged with no errors. -/
theorem roundtrip_parsed_value_witness :
    (u64Data.parse_from_str (u64Data.to_raw_value 1) = Except.ok 1) ∧
    (MiniDoc.write_root ⟨StringValue.Parsed 1⟩ =
      Except.ok (mini_wevents (u64Data.to_raw_value 1)) ∧
    MiniDoc.parse_eml .Strict
        (resolve_stream (mini_wevents (u64Data.to_raw_value 1))) =
      EMLReadResult.Ok ⟨StringValue.Parsed 1⟩ []) :=
  ⟨rfl, roundtrip_parsed_value 1 rfl⟩

/-- C9: writer namespace-prefix resolution.  An element in the default
namespace is written with no prefix; an element in another namespace takes
the prefix from the fixed table and an absent entry fails with
UnknownNamespace; an attribute resolving to the default namespace fails with
AttributeNamespaceError; and creating an element without a namespace while a
default namespace is configured fails with ElementNamespaceError. -/
theorem writer_namespace_resolution (w : EMLWriter) (ns : String) :
    (∀ l : String, w.is_default_namespace (some ns) = true →
      w.format_qname ⟨l, some ns⟩ false = Except.ok l) ∧
    (∀ (l : String) (p : String × String),
      w.is_default_namespace (some ns) = false →
      w.ns_definitions.namespace_definitions.find? (fun pu => pu.2 == ns) =
        some p →
      w.format_qname ⟨l, some ns⟩ false = Except.ok (p.1 ++ ":" ++ l)) ∧
    (∀ l : String, w.is_default_namespace (some ns) = false →
      w.ns_definitions.namespace_definitions.find? (fun pu => pu.2 == ns) =
        none →
      w.format_qname ⟨l, some ns⟩ false =
        Except.error (EMLError.UnknownPosition (.UnknownNamespace ns))) ∧
    (w.is_default_namespace (some ns) = true →
      w.namespacePrefixOf ns true =
        Except.error (EMLError.UnknownPosition .AttributeNamespaceError)) ∧
    (∀ l : String, w.has_default_namespace = true →
      EMLElementWriter.new w ⟨l, none⟩ =
        Except.error (EMLError.UnknownPosition .ElementNamespaceError)) := by
  refine ⟨?_, ?_, ?_, ?_, ?_⟩
  · intro l h
    simp [EMLWriter.format_qname, EMLWriter.namespacePrefixOf, h]
  · intro l p h hf
    simp [EMLWriter.format_qname, EMLWriter.namespacePrefixOf, h, hf]
  · intro l h hf
    simp [EMLWriter.format_qname, EMLWriter.namespacePrefixOf, h, hf]
  · intro h
    simp [EMLWriter.namespacePrefixOf, h]
  · intro l h
    simp [EMLElementWriter.new, EMLWriter.format_qname, h]

/-- Witness for C9 on the default writer configuration: the root EML name
formats without a prefix, a Kiesraad-extension name formats with the kr
prefix, an attribute in the default namespace is rejected, and an element
without a namespace is rejected. -/
theorem writer_namespace_resolution_witness :
    ((EMLWriter.mk default_ns_definitions).is_default_namespace
        (some NS_EML) = true) ∧
    ((EMLWriter.mk default_ns_definitions).format_qname
        ⟨"EML", some NS_EML⟩ false = Except.ok "EML") ∧
    ((EMLWriter.mk default_ns_definitions).format_qname
        ⟨"ElectionDate", some NS_KR⟩ false = Except.ok ("kr" ++ ":" ++ "ElectionDate")) ∧
    ((EMLWriter.mk default_ns_definitions).namespacePrefixOf NS_EML true =
      Except.error (EMLError.UnknownPosition .AttributeNamespaceError)) ∧
    (EMLElementWriter.new (EMLWriter.mk default_ns_definitions)
        ⟨"Unqualified", none⟩ =
      Except.error (EMLError.UnknownPosition .ElementNamespaceError)) :=
  ⟨rfl,
    (writer_namespace_resolution (EMLWriter.mk default_ns_definitions)
      NS_EML).1 "EML" rfl,
    (writer_namespace_resolution (EMLWriter.mk default_ns_definitions)
      NS_KR).2.1 "ElectionDate" ("kr", NS_KR) rfl rfl,
    (writer_namespace_resolution (EMLWriter.mk default_ns_definitions)
      NS_EML).2.2.2.1 rfl,
    (writer_namespace_resolution (EMLWriter.mk default_ns_definitions)
      NS_EML).2.2.2.2 "Unqualified" rfl⟩

end EMLNL

namespace EMLNL

/-- Witness for C8 at the concrete examples of the specification: equal
fully-unqualified names match, and a namespaced name does not equal the same
local name without a namespace. -/
theorem qualified_name_equality_structural_witness :
    is_resolved_name ⟨"Foo", none⟩ ⟨"Foo", none⟩ = true ∧
    (⟨"Foo", some NS_EML⟩ : QualifiedName) ≠ ⟨"Foo", none⟩ :=
  ⟨(qualified_name_equality_structural.2.2 ⟨"Foo", none⟩ ⟨"Foo", none⟩).mpr rfl,
    qualified_name_equality_structural.2.1 "Foo" NS_EML⟩

end EMLNL
